import Mathlib

/-!
Shallow embedding of `maplibre-gl-map-to-image` (src/index.js) and proofs about
its documented behaviour.

The library is a single-file DOM-compositing helper:
`toElement(map, options)` clones the map's container element, strips the live
WebGL canvas out of the clone, waits for the map's one-shot `idle` event,
applies overlay-visibility edits, copies the canvas pixels into the clone,
rasterizes the clone with `html-to-image` and assigns the resulting data URL to
a target `<img>` element.

The embedding below models the DOM subtree of the map container as a tree of
elements, the MapLibre map as a record (viewport bounds, layers with a
`visibility` layout property, the `preserveDrawingBuffer` context attribute),
and a run of `toElement` as a pure state transformation that also produces a
trace of observable events (console messages, map API calls, DOM mutations).
External collaborators (the MapLibre widget, the rasterizer, the browser) are
modelled at the interface the source uses: the rasterizer's outcome is a
parameter of the run, and the map's `idle` event is assumed to fire once
(a run models a call whose single render-complete signal arrives).
-/

namespace MapToImage

/-- Geographic viewport bounds of the map (MapLibre `LngLatBounds`),
as returned by `map.getBounds()`. -/
structure Bounds where
  west : Int
  south : Int
  east : Int
  north : Int
deriving DecidableEq, Repr

/-- Collaborator model: `map.fitBounds(b, {padding})` frames a viewport around
`b`, enlarged by the padding. The exact geometry is irrelevant to the claims;
what matters is that a padded fit and an unpadded fit of the same box agree
exactly when no padding is requested. -/
def padBounds (b : Bounds) (p : Int) : Bounds :=
  ⟨b.west - p, b.south - p, b.east + p, b.north + p⟩

/-- Options record passed to `map.fitBounds` in the source
(`{ animate: false }` at src/index.js:72 and :89, `{ padding: 20 }` at :186).
A field that the source's object literal omits is `none`. -/
structure FitOptions where
  animate : Option Bool
  padding : Option Int
deriving DecidableEq, Repr

/-- A JavaScript value, as far as the source inspects one with `typeof`
(src/index.js:62 checks `typeof mapZIndex === 'string'`). -/
inductive JSValue where
  | str (s : String)
  | num (n : Int)
  | undef
deriving DecidableEq, Repr

/-- JavaScript's `typeof` operator on the modelled values. -/
def jsTypeof : JSValue → String
  | .str _ => "string"
  | .num _ => "number"
  | .undef => "undefined"

/-- Assigning a JavaScript value to a CSS style property coerces it to a
string (used for `mapElement.style.zIndex = mapZIndex` at src/index.js:114). -/
def styleStringOfJS : JSValue → String
  | .str s => s
  | .num n => toString n
  | .undef => "undefined"

/-- A DOM element: tag name, class list, child elements.  This models the
subtree of the map container that `cloneNode(true)` duplicates and that
`querySelectorAll` searches (src/index.js:30, :197-199). -/
inductive Node where
  | el (tag : String) (classes : List String) (children : List Node)

/-- The CSS selectors the source uses are a tag name, a class name, or both
(`'canvas.maplibregl-canvas'`, `'.maplibregl-control-container'`,
`'.maplibregl-ctrl-<corner>'`, `'.maplibregl-marker'`, `'.maplibregl-popup'`). -/
structure Selector where
  tagName : Option String
  className : Option String
deriving DecidableEq, Repr

/-- Whether an element matches a selector: the tag constraint (if any) equals
the element's tag and the class constraint (if any) is in its class list. -/
def matchesSel (s : Selector) : Node → Bool
  | .el tag classes _ =>
    (match s.tagName with
     | some t => tag == t
     | none => true) &&
    (match s.className with
     | some c => classes.contains c
     | none => true)

mutual
/-- `removeElements(element, selector)` (src/index.js:197-199): detach every
descendant of `element` matching `selector`.  On the tree model this keeps the
root and recursively drops matching children together with their subtrees
(removing a matched ancestor also removes any matched nodes inside it, exactly
as `querySelectorAll(...).forEach(el => el.remove())` leaves the tree). -/
def removeElements (e : Node) (s : Selector) : Node :=
  match e with
  | .el t c ch => .el t c (removeChildren ch s)

/-- Children part of `removeElements`: drop matching children, recurse into
the kept ones. -/
def removeChildren (ch : List Node) (s : Selector) : List Node :=
  match ch with
  | [] => []
  | x :: xs =>
    if matchesSel s x then removeChildren xs s
    else removeElements x s :: removeChildren xs s
end

mutual
/-- No strict descendant of `e` matches `s` (the root itself is exempt, as it
is for `querySelectorAll`). -/
def noMatchBelow (s : Selector) (e : Node) : Bool :=
  match e with
  | .el _ _ ch => noMatchBelowList s ch

/-- No element of `ch`, nor any of their descendants, matches `s`. -/
def noMatchBelowList (s : Selector) (ch : List Node) : Bool :=
  match ch with
  | [] => true
  | x :: xs => !matchesSel s x && noMatchBelow s x && noMatchBelowList s xs
end

/-- The MapLibre map, at the interface the source consumes (§6 of the spec):
viewport bounds (`getBounds`/`fitBounds`), style layers with their
`visibility` layout property (`getLayer`/`setLayoutProperty`), and the
`preserveDrawingBuffer` canvas context attribute. -/
structure MapState where
  bounds : Bounds
  layers : List (String × String)
  preserveDrawingBuffer : Bool
deriving DecidableEq, Repr

/-- `map.getLayer(id)` truthiness: the style has a layer with this id. -/
def getLayer (m : MapState) (id : String) : Bool :=
  m.layers.any (fun p => p.1 == id)

/-- `map.setLayoutProperty(id, 'visibility', v)`: update the named layer's
visibility layout property. -/
def setLayoutProperty (m : MapState) (id : String) (v : String) : MapState :=
  { m with layers := m.layers.map (fun p => if p.1 == id then (p.1, v) else p) }

/-- `map.fitBounds(b, o)`: move the viewport to frame `b`, enlarged by the
requested padding if any.  The `animate` option only affects how the camera
gets there, not where it ends up; a run models the settled state. -/
def fitBounds (m : MapState) (b : Bounds) (o : FitOptions) : MapState :=
  { m with bounds := match o.padding with
                     | some p => padBounds b p
                     | none => b }

/-- The `options` argument of `toElement` (src/index.js:8-19).  A JS property
that may be absent is an `Option`; `coverEdits` keeps its three-valued JS
reading (`undefined`, `true`, `false`) because the source tests it with
`options.coverEdits === false`. -/
structure Options where
  targetImageId : String
  hideAllControls : Bool
  hideControlsInCorner : Option (List String)
  hideMarkers : Bool
  hidePopups : Bool
  hideVisibleLayers : Option (List String)
  showHiddenLayers : Option (List String)
  bbox : Option Bounds
  coverEdits : Option Bool
  format : Option String
deriving DecidableEq, Repr

/-- Observable events of a run: console output, MapLibre API calls and the DOM
mutations the source performs. -/
inductive Event where
  | warn (msg : String)
  | errorLog (msg : String)
  | redraw
  | coverRasterize
  | setContainerZIndex (v : String)
  | fitBoundsCall (b : Bounds) (o : FitOptions)
  | setLayerVisibility (id : String) (v : String)
  | idleFired
  | canvasCopy
  | rasterizeCall (format : String)
  | assignTargetSrc (url : String)
  | appendClone
  | removeClone
deriving DecidableEq, Repr

/-- The layer loops of `manageOverlayVisibility` (src/index.js:165-183): for
each id, if the map has the layer set its visibility to `v`, otherwise log
`layer <id> not found` and continue with the rest. -/
def setVisibilityLoop (acc : MapState × List Event) (ids : List String) (v : String) :
    MapState × List Event :=
  match ids with
  | [] => acc
  | id :: rest =>
    let acc :=
      if getLayer acc.1 id then
        (setLayoutProperty acc.1 id v, acc.2 ++ [Event.setLayerVisibility id v])
      else
        (acc.1, acc.2 ++ [Event.warn ("layer " ++ id ++ " not found")])
    setVisibilityLoop acc rest v

/-- `manageOverlayVisibility(map, options, virtualClone)` (src/index.js:146-188):
prune control/marker/popup elements from the clone, toggle layer visibility on
the live map (warning on unknown ids), and, if a bbox was requested, re-fit the
live map to it with `{ padding: 20 }`.  Returns the updated map, the updated
clone subtree, and the emitted events. -/
def ctrlContainerSel : Selector := ⟨none, some "maplibregl-control-container"⟩

/-- Selector `` `.maplibregl-ctrl-${corner}` `` (src/index.js:153). -/
def cornerSel (corner : String) : Selector := ⟨none, some ("maplibregl-ctrl-" ++ corner)⟩

def markerSel : Selector := ⟨none, some "maplibregl-marker"⟩

def popupSel : Selector := ⟨none, some "maplibregl-popup"⟩

/-- The clone edits of `manageOverlayVisibility` (src/index.js:147-163): prune
control containers, per-corner controls, markers and popups from the clone
according to the flags. -/
def movClone (o : Options) (clone : Node) : Node :=
  let clone := if o.hideAllControls then removeElements clone ctrlContainerSel else clone
  let clone := match o.hideControlsInCorner with
    | some corners =>
        corners.foldl (fun acc corner => removeElements acc (cornerSel corner)) clone
    | none => clone
  let clone := if o.hideMarkers then removeElements clone markerSel else clone
  let clone := if o.hidePopups then removeElements clone popupSel else clone
  clone

def manageOverlayVisibility (m : MapState) (o : Options) (clone : Node) :
    MapState × Node × List Event :=
  let clone := movClone o clone
  let acc := match o.hideVisibleLayers with
    | some ids => setVisibilityLoop (m, []) ids "none"
    | none => (m, [])
  let acc := match o.showHiddenLayers with
    | some ids => setVisibilityLoop acc ids "visible"
    | none => acc
  let acc := match o.bbox with
    | some b =>
        (fitBounds acc.1 b ⟨none, some 20⟩,
         acc.2 ++ [Event.fitBoundsCall b ⟨none, some 20⟩])
    | none => acc
  (acc.1, clone, acc.2)

/-- The virtual clone (src/index.js:30, :64-68, :90): the duplicated container
subtree after the live canvas was stripped out, with the inline styles and id
attribute the source assigns, plus the pixel-copied canvas once appended. -/
structure Clone where
  tree : Node
  zIndexStyle : String
  widthStyle : String
  heightStyle : String
  idAttr : String
  pixelCanvas : Option (Int × Int)

/-- Browser-visible state a capture call touches: the map instance, its
container element (inline styles, layout box, DOM subtree, computed z-index),
the target image element's `src`, the attached virtual clone (if any) and the
photocover image (if present).  The target image element named by
`options.targetImageId` is assumed to exist, as the source requires
(src/index.js:9). -/
structure World where
  map : MapState
  containerTree : Node
  containerRectW : Int
  containerRectH : Int
  containerStyleW : Option String
  containerStyleH : Option String
  containerStyleZ : Option String
  computedZIndex : String
  targetSrc : Option String
  attachedClone : Option Clone
  photocover : Bool

/-- `getComputedStyle(mapElement).zIndex` (src/index.js:31).  Computed style
properties of a `CSSStyleDeclaration` are always strings in the DOM (e.g.
`"auto"`, `"5"`, or `""`), which is why the result is always a `JSValue.str`. -/
def getComputedStyleZIndex (w : World) : JSValue :=
  .str w.computedZIndex

/-- CSS pixel length, as the source writes it with template literals
(src/index.js:33-34: `` `${rect.height}px` ``). -/
def pxString (n : Int) : String := toString n ++ "px"

/-- `options.coverEdits === false ? false : true` (src/index.js:39). -/
def coverEditsFlag (o : Options) : Bool :=
  match o.coverEdits with
  | some false => false
  | _ => true

/-- The `switch (options.format)` of src/index.js:95-109: `'jpeg'`, `'svg'`
and `'canvas'` select their rasterizer, everything else (including `'png'` and
an absent format) falls through to `htmlToImage.toPng`. -/
def chooseFormat : Option String → String
  | some "jpeg" => "jpeg"
  | some "svg" => "svg"
  | some "canvas" => "canvas"
  | _ => "png"

/-- The selector `'canvas.maplibregl-canvas'` used to strip the live canvas
from the clone (src/index.js:68). -/
def canvasSelector : Selector := ⟨some "canvas", some "maplibregl-canvas"⟩

/-- `copyCanvas(canvas)` (src/index.js:207-220): a fresh canvas sized by the
source canvas's bounding rectangle, holding an independent copy of its pixels
(the pixels themselves are outside the model; the copy is represented by its
dimensions). -/
def copyCanvas (rectW rectH : Int) : Int × Int := (rectW, rectH)

/-- Lines 30 and 64-68: `mapElement.cloneNode(true)` restyled as the virtual
clone, with the canvas stripped out. -/
def cloneSetup (w : World) : Clone :=
  { tree := removeElements w.containerTree canvasSelector
    zIndexStyle := "-9999"
    heightStyle := pxString w.containerRectH
    widthStyle := pxString w.containerRectW
    idAttr := "virtual-map-container"
    pixelCanvas := none }

/-- Lines 33-34: pin the container's inline width and height to its current
bounding-rectangle pixel dimensions. -/
def pinContainerSize (w : World) : World :=
  { w with containerStyleH := some (pxString w.containerRectH)
           containerStyleW := some (pxString w.containerRectW) }

/-- The console message of src/index.js:46. -/
def preserveWarnMsg : String :=
  "Setting the map's initial preserveDrawingBuffer setting to true may prevent screen flicker."

/-- Lines 36-60: if `coverEdits` is on, ensure `preserveDrawingBuffer` (with a
redraw and a warning if it was off), rasterize the live container and prepend
the photocover image over it.  The cover rasterization is assumed to succeed
(its failure would reject the async function before the capture pipeline
starts, a path none of the claims are about). -/
def coverPhase (w : World) (o : Options) : World × List Event :=
  if coverEditsFlag o then
    let step :=
      if !w.map.preserveDrawingBuffer then
        ({ w with map := { w.map with preserveDrawingBuffer := true } },
         [Event.redraw, Event.warn preserveWarnMsg])
      else (w, ([] : List Event))
    ({ step.1 with photocover := true }, step.2 ++ [Event.coverRasterize])
  else (w, [])

/-- Line 62: `if (typeof mapZIndex === 'string') mapElement.style.zIndex = 0;`
(the number 0 is coerced to the style string `"0"`). -/
def zNormalizePhase (w : World) (mapZIndex : JSValue) : World × List Event :=
  if jsTypeof mapZIndex == "string" then
    ({ w with containerStyleZ := some "0" }, [Event.setContainerZIndex "0"])
  else (w, [])

/-- Lines 71-73: `if (options.bbox) map.fitBounds(options.bbox, { animate: false })`. -/
def bboxPrefitPhase (w : World) (o : Options) : World × List Event :=
  match o.bbox with
  | some b =>
      ({ w with map := fitBounds w.map b ⟨some false, none⟩ },
       [Event.fitBoundsCall b ⟨some false, none⟩])
  | none => (w, [])

/-- Lines 83-126: the body of the `map.once('idle', ...)` handler, entered
when the one-shot render-complete signal fires.  `raster` is the outcome of
the selected `html-to-image` rasterizer applied to the clone.  On success the
target image's `src` is assigned, the container z-index and the
`preserveDrawingBuffer` flag are restored, and the clone and photocover are
removed; on failure the error is logged and the promise rejects with it. -/
def idleHandler (w : World) (o : Options) (originalBounds : Bounds)
    (mapZIndex : JSValue) (originalPreserve : Bool) (clone : Clone)
    (raster : Except String String) :
    World × Except String Unit × List Event :=
  let mov := manageOverlayVisibility w.map o clone.tree
  let w := { w with map := mov.1 }
  let evs := mov.2.2
  let newCanvas := copyCanvas w.containerRectW w.containerRectH
  let evs := evs ++ [Event.canvasCopy]
  let w := { w with map := fitBounds w.map originalBounds ⟨some false, none⟩ }
  let evs := evs ++ [Event.fitBoundsCall originalBounds ⟨some false, none⟩]
  let clone := { clone with tree := mov.2.1, pixelCanvas := some newCanvas }
  let w := { w with attachedClone := some clone }
  let evs := evs ++ [Event.appendClone]
  let evs := evs ++ [Event.rasterizeCall (chooseFormat o.format)]
  match raster with
  | .ok dataUrl =>
      ({ w with targetSrc := some dataUrl
                containerStyleZ := some (styleStringOfJS mapZIndex)
                attachedClone := none
                map := { w.map with preserveDrawingBuffer := originalPreserve }
                photocover := false },
       .ok (),
       evs ++ [Event.assignTargetSrc dataUrl,
               Event.setContainerZIndex (styleStringOfJS mapZIndex),
               Event.removeClone])
  | .error e =>
      (w, .error e, evs ++ [Event.errorLog e])

/-- Result of one run of a capture entry point: the final browser state, the
settled promise (`ok` for resolve, `error` for reject), and the event trace. -/
structure RunResult where
  world : World
  result : Except String Unit
  trace : List Event

/-- `toElement(map, options)` (src/index.js:22-129), as one run in which the
map's one-shot `idle` event fires and the rasterizer settles with `raster`.
The phases follow the source in order: record bounds / computed z-index /
`preserveDrawingBuffer`, clone the container, pin the container size, the
cover-edits block, the z-index normalization, the clone styling and canvas
strip, the optional unpadded bbox fit, `map.redraw()`, then the idle handler. -/
def toElement (w : World) (o : Options) (raster : Except String String) : RunResult :=
  let originalBounds := w.map.bounds
  let mapZIndex := getComputedStyleZIndex w
  let originalPreserve := w.map.preserveDrawingBuffer
  let virtualClone := cloneSetup w
  let w1 := pinContainerSize w
  let step2 := coverPhase w1 o
  let step3 := zNormalizePhase step2.1 mapZIndex
  let step4 := bboxPrefitPhase step3.1 o
  let preEvs := step2.2 ++ step3.2 ++ step4.2 ++ [Event.redraw]
  let fin := idleHandler step4.1 o originalBounds mapZIndex originalPreserve virtualClone raster
  ⟨fin.1, fin.2.1, preEvs ++ Event.idleFired :: fin.2.2⟩

/-- Modelled from the spec: the `toPng` entry point is documented in the
README and in §6 of the spec ("`toPng(widget, options)` — always rasterizes
to a PNG data URL") but its definition is not among the provided sources;
following the spec's words it performs the same capture as `toElement` with
the rasterization format forced to PNG. -/
def toPng (w : World) (o : Options) (raster : Except String String) : RunResult :=
  toElement w { o with format := some "png" } raster

/-- Events that belong to the overlay-visibility step or the pixel copy: the
layer-visibility writes and padded viewport fits of `manageOverlayVisibility`,
and the `copyCanvas` call. -/
def isOverlayEditOrCopy : Event → Bool
  | .setLayerVisibility _ _ => true
  | .fitBoundsCall _ fo => fo.padding.isSome
  | .canvasCopy => true
  | _ => false

/-- Pointwise effect of the two layer loops on one `(id, visibility)` entry:
the show loop runs after the hide loop, so an id on both lists ends visible. -/
def visAfter (hideIds showIds : List String) (p : String × String) : String × String :=
  if showIds.contains p.1 then (p.1, "visible")
  else if hideIds.contains p.1 then (p.1, "none") else p

/-- The selectors `movClone` prunes, in the order the source applies them. -/
def activeSels (o : Options) : List Selector :=
  (if o.hideAllControls then [ctrlContainerSel] else []) ++
  (match o.hideControlsInCorner with
   | some corners => corners.map cornerSel
   | none => []) ++
  (if o.hideMarkers then [markerSel] else []) ++
  (if o.hidePopups then [popupSel] else [])

/-- A small concrete map-container subtree for concrete runs: the canvas
container with the live canvas, a control container, and a marker. -/
def sampleTree : Node :=
  Node.el "div" ["maplibregl-map"]
    [Node.el "div" ["maplibregl-canvas-container"]
       [Node.el "canvas" ["maplibregl-canvas"] []],
     Node.el "div" ["maplibregl-control-container"] [],
     Node.el "div" ["maplibregl-marker"] []]

/-- A concrete map: two layers, `preserveDrawingBuffer` off. -/
def sampleMap : MapState :=
  { bounds := ⟨-10, -10, 10, 10⟩
    layers := [("roads", "visible"), ("parks", "none")]
    preserveDrawingBuffer := false }

/-- A concrete browser state whose container has computed z-index `"5"`
(not `"auto"`) and matching inline z-index. -/
def sampleWorld : World :=
  { map := sampleMap
    containerTree := sampleTree
    containerRectW := 400
    containerRectH := 300
    containerStyleW := none
    containerStyleH := none
    containerStyleZ := some "5"
    computedZIndex := "5"
    targetSrc := some "before.png"
    attachedClone := none
    photocover := false }

/-- Options with only the required field set. -/
def baseOptions : Options :=
  { targetImageId := "img"
    hideAllControls := false
    hideControlsInCorner := none
    hideMarkers := false
    hidePopups := false
    hideVisibleLayers := none
    showHiddenLayers := none
    bbox := none
    coverEdits := none
    format := none }

/-- A concrete bounding box used by the bbox counterexamples. -/
def sampleBbox : Bounds := ⟨-80, 20, -60, 60⟩

/-- Options asking to hide `roads` and the nonexistent `ghost`, and to show
`parks` and the nonexistent `phantom`. -/
def layerOptions : Options :=
  { baseOptions with
      hideVisibleLayers := some ["roads", "ghost"]
      showHiddenLayers := some ["parks", "phantom"] }

/-- Strong induction on the element tree: to prove `P` for a node it suffices
to assume it for all (immediate) children. -/
theorem Node.strongInd {P : Node → Prop}
    (h : ∀ t c ch, (∀ x, x ∈ ch → P x) → P (Node.el t c ch)) : ∀ e, P e
  | .el t c ch => h t c ch (fun x hx =>
      have : sizeOf x < sizeOf (Node.el t c ch) := by
        have hm := List.sizeOf_lt_of_mem hx
        simp only [Node.el.sizeOf_spec]
        omega
      Node.strongInd h x)
termination_by e => sizeOf e

theorem removeElements_el (t c ch s) :
    removeElements (Node.el t c ch) s = Node.el t c (removeChildren ch s) := by
  simp [removeElements]

theorem removeChildren_nil (s) : removeChildren [] s = [] := by
  simp [removeChildren]

theorem removeChildren_cons (x xs s) :
    removeChildren (x :: xs) s =
      if matchesSel s x then removeChildren xs s
      else removeElements x s :: removeChildren xs s := by
  simp [removeChildren]

/-- Pruning never changes the root's tag or class list, so whether the root
matches any selector is unchanged. -/
theorem matchesSel_removeElements (s s' : Selector) (e : Node) :
    matchesSel s (removeElements e s') = matchesSel s e := by
  cases e with
  | el t c ch => rw [removeElements_el]; rfl

theorem noMatchBelow_el (s t c ch) :
    noMatchBelow s (Node.el t c ch) = noMatchBelowList s ch := by
  simp [noMatchBelow]

theorem noMatchBelowList_nil (s) : noMatchBelowList s [] = true := by
  simp [noMatchBelowList]

theorem noMatchBelowList_cons (s x xs) :
    noMatchBelowList s (x :: xs) =
      (!matchesSel s x && noMatchBelow s x && noMatchBelowList s xs) := by
  simp [noMatchBelowList]

/-- After pruning with `s`, no descendant matches `s`. -/
theorem noMatchBelow_removeElements (s : Selector) :
    ∀ e, noMatchBelow s (removeElements e s) = true := by
  apply Node.strongInd
  intro t c ch ih
  rw [removeElements_el, noMatchBelow_el]
  induction ch with
  | nil => simp [removeChildren_nil, noMatchBelowList_nil]
  | cons x xs ihl =>
    rw [removeChildren_cons]
    by_cases hm : matchesSel s x
    · simpa [hm] using ihl (fun y hy => ih y (List.mem_cons_of_mem x hy))
    · rw [if_neg hm, noMatchBelowList_cons]
      have h1 : matchesSel s (removeElements x s) = false := by
        rw [matchesSel_removeElements]; exact Bool.of_not_eq_true hm
      have h2 := ih x (List.mem_cons_self x xs)
      have h3 := ihl (fun y hy => ih y (List.mem_cons_of_mem x hy))
      simp [h1, h2, h3]

/-- Pruning a tree none of whose descendants match is a no-op. -/
theorem removeElements_of_noMatchBelow (s : Selector) :
    ∀ e, noMatchBelow s e = true → removeElements e s = e := by
  apply Node.strongInd
  intro t c ch ih h
  rw [noMatchBelow_el] at h
  rw [removeElements_el]
  congr 1
  induction ch with
  | nil => exact removeChildren_nil s
  | cons x xs ihl =>
    rw [noMatchBelowList_cons] at h
    have hx : matchesSel s x = false := by
      cases hm : matchesSel s x <;> simp [hm] at h ⊢
    have hbelow : noMatchBelow s x = true := by
      cases hb : noMatchBelow s x <;> simp [hx, hb] at h ⊢
    have hrest : noMatchBelowList s xs = true := by
      cases hr : noMatchBelowList s xs <;> simp [hx, hbelow, hr] at h ⊢
    rw [removeChildren_cons, if_neg (by simp [hx])]
    rw [ih x (List.mem_cons_self x xs) hbelow,
        ihl (fun y hy => ih y (List.mem_cons_of_mem x hy)) hrest]

/-- Pruning with any selector cannot introduce a match for another selector:
descendants of the pruned tree are (pruned copies of) descendants of the
original, with the same tags and classes. -/
theorem noMatchBelow_removeElements_other (s s' : Selector) :
    ∀ e, noMatchBelow s e = true → noMatchBelow s (removeElements e s') = true := by
  apply Node.strongInd
  intro t c ch ih h
  rw [noMatchBelow_el] at h
  rw [removeElements_el, noMatchBelow_el]
  induction ch with
  | nil => simp [removeChildren_nil, noMatchBelowList_nil]
  | cons x xs ihl =>
    rw [noMatchBelowList_cons] at h
    have hx : matchesSel s x = false := by
      cases hm : matchesSel s x <;> simp [hm] at h ⊢
    have hbelow : noMatchBelow s x = true := by
      cases hb : noMatchBelow s x <;> simp [hx, hb] at h ⊢
    have hrest : noMatchBelowList s xs = true := by
      cases hr : noMatchBelowList s xs <;> simp [hx, hbelow, hr] at h ⊢
    have htail := ihl (fun y hy => ih y (List.mem_cons_of_mem x hy)) hrest
    rw [removeChildren_cons]
    by_cases hm : matchesSel s' x
    · simpa [hm] using htail
    · rw [if_neg hm, noMatchBelowList_cons]
      have h1 : matchesSel s (removeElements x s') = false := by
        rw [matchesSel_removeElements]; exact hx
      have h2 := ih x (List.mem_cons_self x xs) hbelow
      simp [h1, h2, htail]

/-- A fold of prunes preserves "no descendant matches `s`". -/
theorem noMatchBelow_foldl (s : Selector) (sels : List Selector) (e : Node)
    (h : noMatchBelow s e = true) :
    noMatchBelow s (sels.foldl removeElements e) = true := by
  induction sels generalizing e with
  | nil => simpa using h
  | cons s' rest ih =>
    exact ih (removeElements e s') (noMatchBelow_removeElements_other s s' e h)

/-- After folding prunes over `sels`, no descendant matches any of them. -/
theorem noMatchBelow_foldl_mem (sels : List Selector) (e : Node) :
    ∀ s ∈ sels, noMatchBelow s (sels.foldl removeElements e) = true := by
  induction sels generalizing e with
  | nil => intro s hs; cases hs
  | cons s' rest ih =>
    intro s hs
    rcases List.mem_cons.mp hs with h | h
    · subst h
      exact noMatchBelow_foldl s rest (removeElements e s)
        (noMatchBelow_removeElements s e)
    · exact ih (removeElements e s') s h

/-- Folding prunes over a tree that already has no matches for any of the
selectors is a no-op. -/
theorem foldl_removeElements_of_noMatch (sels : List Selector) (e : Node)
    (h : ∀ s ∈ sels, noMatchBelow s e = true) :
    sels.foldl removeElements e = e := by
  induction sels generalizing e with
  | nil => rfl
  | cons s' rest ih =>
    have h1 : removeElements e s' = e :=
      removeElements_of_noMatchBelow s' e (h s' (List.mem_cons_self s' rest))
    rw [List.foldl_cons, h1]
    exact ih e (fun s hs => h s (List.mem_cons_of_mem s' hs))

/-- Folding the same prunes twice gives the same tree as folding them once. -/
theorem foldl_removeElements_idem (sels : List Selector) (e : Node) :
    sels.foldl removeElements (sels.foldl removeElements e) =
      sels.foldl removeElements e :=
  foldl_removeElements_of_noMatch sels _ (noMatchBelow_foldl_mem sels e)

/-- `movClone` is the fold of prunes over the selectors its flags activate. -/
theorem movClone_eq_foldl (o : Options) (e : Node) :
    movClone o e = (activeSels o).foldl removeElements e := by
  unfold movClone activeSels
  rw [List.foldl_append, List.foldl_append, List.foldl_append]
  cases o.hideAllControls <;>
  cases o.hideMarkers <;>
  cases o.hidePopups <;>
  cases o.hideControlsInCorner <;>
  simp [List.foldl_map]

/-- The clone edits of `manageOverlayVisibility` are idempotent. -/
theorem movClone_idem (o : Options) (e : Node) :
    movClone o (movClone o e) = movClone o e := by
  rw [movClone_eq_foldl o (movClone o e), movClone_eq_foldl o e]
  exact foldl_removeElements_idem (activeSels o) e

/-- `setLayoutProperty` rewrites visibility values but never adds, removes or
renames layers, so `getLayer` is unaffected. -/
theorem getLayer_setLayoutProperty (m : MapState) (id v j : String) :
    getLayer (setLayoutProperty m id v) j = getLayer m j := by
  simp only [getLayer, setLayoutProperty, List.any_map]
  congr 1
  funext p
  simp only [Function.comp]
  split <;> rfl

/-- The layer loop's effect on the map: every layer whose id is on the list
gets visibility `v`; nothing else (bounds, buffer flag, other layers)
changes. -/
theorem setVisibilityLoop_fst (acc : MapState × List Event) (ids : List String)
    (v : String) :
    (setVisibilityLoop acc ids v).1 =
      { acc.1 with layers :=
          acc.1.layers.map (fun p => if ids.contains p.1 then (p.1, v) else p) } := by
  obtain ⟨m, tr⟩ := acc
  induction ids generalizing m tr with
  | nil => simp [setVisibilityLoop]
  | cons id rest ih =>
    simp only [setVisibilityLoop]
    by_cases hg : getLayer m id
    · rw [if_pos hg, ih]
      simp only [setLayoutProperty, List.map_map]
      congr 1
      apply List.map_congr_left
      intro p _
      simp only [Function.comp]
      by_cases hid : p.1 = id
      · simp [hid]
      · simp [hid]
    · rw [if_neg hg, ih]
      simp only [MapState.mk.injEq, true_and, and_true]
      apply List.map_congr_left
      intro p hp
      have hgf : getLayer m id = false := by simpa using hg
      simp only [getLayer, List.any_eq_false] at hgf
      have hne : ¬p.1 = id := by simpa using hgf p hp
      simp [hne]

/-- Events already accumulated stay in the layer loop's trace. -/
theorem setVisibilityLoop_mem_acc (acc : MapState × List Event)
    (ids : List String) (v : String) (e : Event) (he : e ∈ acc.2) :
    e ∈ (setVisibilityLoop acc ids v).2 := by
  obtain ⟨m, tr⟩ := acc
  simp only at he
  revert he
  induction ids generalizing m tr with
  | nil => intro he; simpa [setVisibilityLoop] using he
  | cons id rest ih =>
    intro he
    simp only [setVisibilityLoop]
    by_cases hg : getLayer m id
    · rw [if_pos hg]
      exact ih _ _ (List.mem_append_left _ he)
    · rw [if_neg hg]
      exact ih _ _ (List.mem_append_left _ he)

/-- Each id on the list that the map does not have produces its diagnostic
warning in the loop's trace. -/
theorem setVisibilityLoop_warn_mem (acc : MapState × List Event)
    (ids : List String) (v : String) (id : String) (hid : id ∈ ids)
    (hg : getLayer acc.1 id = false) :
    Event.warn ("layer " ++ id ++ " not found") ∈ (setVisibilityLoop acc ids v).2 := by
  obtain ⟨m, tr⟩ := acc
  simp only at hg
  revert hid hg
  induction ids generalizing m tr with
  | nil => intro hid _; cases hid
  | cons i rest ih =>
    intro hid hg
    simp only [setVisibilityLoop]
    rcases List.mem_cons.mp hid with h | h
    · subst h
      rw [if_neg (by simp [hg])]
      exact setVisibilityLoop_mem_acc _ _ _ _
        (List.mem_append_right _ (List.mem_singleton.mpr rfl))
    · by_cases hg2 : getLayer m i
      · rw [if_pos hg2]
        exact ih _ _ h (by rw [getLayer_setLayoutProperty]; exact hg)
      · rw [if_neg hg2]
        exact ih _ _ h hg

/-- The clone returned by `manageOverlayVisibility` is exactly the pruned
clone. -/
theorem manageOverlayVisibility_clone (m : MapState) (o : Options) (c : Node) :
    (manageOverlayVisibility m o c).2.1 = movClone o c := rfl

/-- Map-state effect of `manageOverlayVisibility`: layers named on the lists
get their visibility written (the show loop runs second, so an id on both
lists ends `"visible"`), the viewport is re-fit to the bbox with padding 20 if
one was requested, and nothing else (other layers, the buffer flag) changes. -/
theorem manageOverlayVisibility_fst (m : MapState) (o : Options) (c : Node) :
    (manageOverlayVisibility m o c).1 =
      { m with
        bounds := match o.bbox with
                  | some b => padBounds b 20
                  | none => m.bounds
        layers := m.layers.map
          (visAfter (o.hideVisibleLayers.getD []) (o.showHiddenLayers.getD [])) } := by
  unfold manageOverlayVisibility
  rcases hvl : o.hideVisibleLayers with _ | hids <;>
  rcases hsl : o.showHiddenLayers with _ | sids <;>
  rcases hbb : o.bbox with _ | b <;>
  simp only [hvl, hsl, hbb, Option.getD_none, Option.getD_some,
             setVisibilityLoop_fst, fitBounds, List.map_map,
             MapState.mk.injEq, true_and, and_true]
  all_goals try rfl
  case none.none.none =>
    have h : List.map (visAfter [] []) m.layers = m.layers :=
      (List.map_congr_left fun p _ => rfl).trans (List.map_id _)
    rw [h]
  case none.none.some =>
    exact ((List.map_congr_left fun p _ => rfl).trans (List.map_id _)).symm
  all_goals
    apply List.map_congr_left
    intro p _
    by_cases hH : p.1 ∈ hids <;> by_cases hS : p.1 ∈ sids <;>
      simp [visAfter, Function.comp, hH, hS]

/-- The pointwise visibility rewrite is idempotent: it decides by key only,
and it never changes a key. -/
theorem visAfter_idem (hideIds showIds : List String) (p : String × String) :
    visAfter hideIds showIds (visAfter hideIds showIds p) =
      visAfter hideIds showIds p := by
  unfold visAfter
  by_cases hS : p.1 ∈ showIds <;> by_cases hH : p.1 ∈ hideIds <;> simp [hS, hH]

/-- `getLayer` is invariant under the layer loop: visibility writes never add,
remove or rename layers. -/
theorem getLayer_setVisibilityLoop (acc : MapState × List Event)
    (ids : List String) (v j : String) :
    getLayer (setVisibilityLoop acc ids v).1 j = getLayer acc.1 j := by
  rw [setVisibilityLoop_fst]
  simp only [getLayer, List.any_map]
  congr 1
  funext p
  simp only [Function.comp]
  split <;> rfl

/-- The bbox re-fit event `manageOverlayVisibility` emits when a bbox is
requested: padding 20, and no `animate` option. -/
theorem manageOverlayVisibility_bbox_event (m : MapState) (o : Options) (c : Node)
    (b : Bounds) (hb : o.bbox = some b) :
    Event.fitBoundsCall b ⟨none, some 20⟩ ∈ (manageOverlayVisibility m o c).2.2 := by
  unfold manageOverlayVisibility
  simp only [hb]
  exact List.mem_append_right _ (List.mem_singleton.mpr rfl)

/-- An id on `hideVisibleLayers` that the map lacks produces its warning in
the trace of `manageOverlayVisibility`. -/
theorem manageOverlayVisibility_warn_hide (m : MapState) (o : Options) (c : Node)
    (id : String) (hids : List String) (hvl : o.hideVisibleLayers = some hids)
    (hid : id ∈ hids) (hg : getLayer m id = false) :
    Event.warn ("layer " ++ id ++ " not found") ∈ (manageOverlayVisibility m o c).2.2 := by
  unfold manageOverlayVisibility
  simp only [hvl]
  have h1 : Event.warn ("layer " ++ id ++ " not found") ∈
      (setVisibilityLoop (m, []) hids "none").2 :=
    setVisibilityLoop_warn_mem _ _ _ _ hid hg
  rcases hsl : o.showHiddenLayers with _ | sids <;>
  rcases hbb : o.bbox with _ | b <;>
  simp only [hsl, hbb] <;>
  first
  | exact h1
  | exact List.mem_append_left _ h1
  | exact setVisibilityLoop_mem_acc _ _ _ _ h1
  | exact List.mem_append_left _ (setVisibilityLoop_mem_acc _ _ _ _ h1)

/-- An id on `showHiddenLayers` that the map lacks produces its warning in
the trace of `manageOverlayVisibility`. -/
theorem manageOverlayVisibility_warn_show (m : MapState) (o : Options) (c : Node)
    (id : String) (sids : List String) (hsl : o.showHiddenLayers = some sids)
    (hid : id ∈ sids) (hg : getLayer m id = false) :
    Event.warn ("layer " ++ id ++ " not found") ∈ (manageOverlayVisibility m o c).2.2 := by
  unfold manageOverlayVisibility
  simp only [hsl]
  rcases hvl : o.hideVisibleLayers with _ | hids <;>
  rcases hbb : o.bbox with _ | b <;>
  simp only [hvl, hbb] <;>
  first
  | exact setVisibilityLoop_warn_mem _ _ _ _ hid hg
  | exact List.mem_append_left _ (setVisibilityLoop_warn_mem _ _ _ _ hid hg)
  | exact setVisibilityLoop_warn_mem _ _ _ _ hid
      (by rw [getLayer_setVisibilityLoop]; exact hg)
  | exact List.mem_append_left _ (setVisibilityLoop_warn_mem _ _ _ _ hid
      (by rw [getLayer_setVisibilityLoop]; exact hg))

/-- C8: `manageOverlayVisibility` is idempotent on the state it edits —
running it twice with the same options yields the same live-map layer
visibilities, the same viewport and the same clone subtree as running it
once. -/
theorem c8_manageOverlayVisibility_idempotent (m : MapState) (o : Options) (c : Node) :
    (manageOverlayVisibility (manageOverlayVisibility m o c).1 o
        (manageOverlayVisibility m o c).2.1).1 = (manageOverlayVisibility m o c).1 ∧
    (manageOverlayVisibility (manageOverlayVisibility m o c).1 o
        (manageOverlayVisibility m o c).2.1).2.1 = (manageOverlayVisibility m o c).2.1 := by
  constructor
  · rw [manageOverlayVisibility_fst m o c,
        manageOverlayVisibility_fst _ o _,
        MapState.mk.injEq]
    refine ⟨?_, ?_, rfl⟩
    · cases o.bbox <;> rfl
    · rw [List.map_map]
      apply List.map_congr_left
      intro p _
      exact visAfter_idem _ _ p
  · rw [manageOverlayVisibility_clone, manageOverlayVisibility_clone]
    exact movClone_idem o c

/-- Closed form of the cover phase's state effect: it may switch
`preserveDrawingBuffer` on and insert the photocover, and touches nothing
else. -/
theorem coverPhase_fst (w : World) (o : Options) :
    (coverPhase w o).1 =
      { w with
        map := { w.map with preserveDrawingBuffer :=
                   (w.map.preserveDrawingBuffer || coverEditsFlag o) }
        photocover := (w.photocover || coverEditsFlag o) } := by
  cases h : coverEditsFlag o <;> cases h2 : w.map.preserveDrawingBuffer <;>
  simp [coverPhase, h, h2] <;>
  (conv_rhs => rw [← h2])

/-- The z-index normalization always fires: a computed style value is a
string, so the `typeof` guard is always true and the inline z-index is set
to `"0"`. -/
theorem zNormalizePhase_str (w : World) (s : String) :
    zNormalizePhase w (JSValue.str s) =
      ({ w with containerStyleZ := some "0" }, [Event.setContainerZIndex "0"]) := by
  simp [zNormalizePhase, jsTypeof]

/-- Closed form of the bbox pre-fit's state effect: an unpadded jump of the
viewport to the bbox when one is requested, nothing otherwise. -/
theorem bboxPrefitPhase_fst (w : World) (o : Options) :
    (bboxPrefitPhase w o).1 =
      { w with map := { w.map with bounds := match o.bbox with
                                             | some b => b
                                             | none => w.map.bounds } } := by
  cases hb : o.bbox <;> simp [bboxPrefitPhase, hb, fitBounds]

/-- Full characterization of the idle handler on the success path. -/
theorem idleHandler_ok (w : World) (o : Options) (ob : Bounds) (z : JSValue)
    (pres : Bool) (cl : Clone) (du : String) :
    idleHandler w o ob z pres cl (Except.ok du) =
      ({ w with
         map := { (manageOverlayVisibility w.map o cl.tree).1 with
                  bounds := ob, preserveDrawingBuffer := pres }
         targetSrc := some du
         containerStyleZ := some (styleStringOfJS z)
         attachedClone := none
         photocover := false },
       Except.ok (),
       (manageOverlayVisibility w.map o cl.tree).2.2 ++ [Event.canvasCopy] ++
         [Event.fitBoundsCall ob ⟨some false, none⟩] ++ [Event.appendClone] ++
         [Event.rasterizeCall (chooseFormat o.format)] ++
         [Event.assignTargetSrc du,
          Event.setContainerZIndex (styleStringOfJS z),
          Event.removeClone]) := rfl

/-- Full characterization of the idle handler on the failure path: the error
is logged and passed through, the clone (with the pixel copy appended) is
still attached, and no restoration beyond the viewport re-fit happened. -/
theorem idleHandler_error (w : World) (o : Options) (ob : Bounds) (z : JSValue)
    (pres : Bool) (cl : Clone) (e : String) :
    idleHandler w o ob z pres cl (Except.error e) =
      ({ w with
         map := { (manageOverlayVisibility w.map o cl.tree).1 with bounds := ob }
         attachedClone := some
           { cl with
             tree := (manageOverlayVisibility w.map o cl.tree).2.1
             pixelCanvas := some (copyCanvas w.containerRectW w.containerRectH) } },
       Except.error e,
       (manageOverlayVisibility w.map o cl.tree).2.2 ++ [Event.canvasCopy] ++
         [Event.fitBoundsCall ob ⟨some false, none⟩] ++ [Event.appendClone] ++
         [Event.rasterizeCall (chooseFormat o.format)] ++ [Event.errorLog e]) := rfl

/-- C1: for every valid configuration, after a capture call on `toElement`
resolves successfully, the live map's viewport bounds equal the bounds
recorded at call start (the value of `map.getBounds()` at entry), whether or
not `options.bbox` was supplied. -/
theorem c1_bounds_restored (w : World) (o : Options) (dataUrl : String) :
    (toElement w o (Except.ok dataUrl)).result = Except.ok () ∧
    (toElement w o (Except.ok dataUrl)).world.map.bounds = w.map.bounds :=
  ⟨rfl, rfl⟩

/-- C2 (amended): the virtual clone is detached and discarded by the end of
the call on the success path, but on the rasterization-failure path it is
left attached to the live container — the `catch` branch never removes it. -/
theorem c2_clone_removed_only_on_success (w : World) (o : Options)
    (dataUrl err : String) :
    (toElement w o (Except.ok dataUrl)).world.attachedClone = none ∧
    ((toElement w o (Except.error err)).world.attachedClone).isSome = true :=
  ⟨rfl, rfl⟩

/-- C2 counterexample: on a concrete run whose rasterization fails, the
promise rejects and the virtual clone is still attached to the container at
the end of the call — refuting that the clone is discarded on the failure
path. -/
theorem c2_counterexample :
    (toElement sampleWorld baseOptions (Except.error "rasterize failed")).result =
      Except.error "rasterize failed" ∧
    ((toElement sampleWorld baseOptions
        (Except.error "rasterize failed")).world.attachedClone).isSome = true :=
  ⟨rfl, rfl⟩

/-- C3: if the rasterization step fails, the promise returned by `toElement`
rejects with the underlying rasterizer error, and the target image element is
left unchanged — its `src` is never assigned on the failure path. -/
theorem c3_failure_leaves_target (w : World) (o : Options) (e : String) :
    (toElement w o (Except.error e)).result = Except.error e ∧
    (toElement w o (Except.error e)).world.targetSrc = w.targetSrc := by
  constructor
  · rfl
  · simp only [toElement, getComputedStyleZIndex, idleHandler_error,
               bboxPrefitPhase_fst, zNormalizePhase_str, coverPhase_fst,
               pinContainerSize]

/-- C10: `toElement` overwrites the container's inline width and height with
its at-call pixel dimensions, and neither the success nor the failure path
ever restores or removes them — the container stays pinned to its at-call
size after the call. -/
theorem c10_container_size_pinned (w : World) (o : Options)
    (raster : Except String String) :
    (toElement w o raster).world.containerStyleW = some (pxString w.containerRectW) ∧
    (toElement w o raster).world.containerStyleH = some (pxString w.containerRectH) := by
  cases raster <;> constructor <;>
  simp only [toElement, getComputedStyleZIndex, idleHandler_ok, idleHandler_error,
             bboxPrefitPhase_fst, zNormalizePhase_str, coverPhase_fst,
             pinContainerSize]

/-- Every event the cover phase emits is a redraw, the buffer warning, or the
cover rasterization. -/
theorem coverPhase_events (w : World) (o : Options) :
    ∀ e ∈ (coverPhase w o).2,
      e = Event.redraw ∨ e = Event.warn preserveWarnMsg ∨ e = Event.coverRasterize := by
  intro e he
  cases h : coverEditsFlag o <;> cases h2 : w.map.preserveDrawingBuffer <;>
    simp [coverPhase, h, h2] at he <;> tauto

/-- Every event the bbox pre-fit emits is an unpadded, animation-free fit. -/
theorem bboxPrefitPhase_events (w : World) (o : Options) :
    ∀ e ∈ (bboxPrefitPhase w o).2,
      ∃ b, e = Event.fitBoundsCall b ⟨some false, none⟩ := by
  intro e he
  cases hb : o.bbox <;> simp [bboxPrefitPhase, hb] at he
  exact ⟨_, he⟩

/-- Every event the layer loop adds beyond its accumulator is a visibility
write or a layer-not-found warning. -/
theorem setVisibilityLoop_events (acc : MapState × List Event) (ids : List String)
    (v : String) :
    ∀ e ∈ (setVisibilityLoop acc ids v).2,
      e ∈ acc.2 ∨ (∃ id, e = Event.setLayerVisibility id v) ∨
        ∃ id, e = Event.warn ("layer " ++ id ++ " not found") := by
  obtain ⟨m, tr⟩ := acc
  induction ids generalizing m tr with
  | nil =>
    intro e he
    simp only [setVisibilityLoop] at he
    exact Or.inl he
  | cons id rest ih =>
    intro e he
    simp only [setVisibilityLoop] at he
    by_cases hg : getLayer m id
    · rw [if_pos hg] at he
      rcases ih _ _ e he with h | h | h
      · rcases List.mem_append.mp h with h' | h'
        · exact Or.inl h'
        · exact Or.inr (Or.inl ⟨id, List.mem_singleton.mp h'⟩)
      · exact Or.inr (Or.inl h)
      · exact Or.inr (Or.inr h)
    · rw [if_neg hg] at he
      rcases ih _ _ e he with h | h | h
      · rcases List.mem_append.mp h with h' | h'
        · exact Or.inl h'
        · exact Or.inr (Or.inr ⟨id, List.mem_singleton.mp h'⟩)
      · exact Or.inr (Or.inl h)
      · exact Or.inr (Or.inr h)

/-- Every event `manageOverlayVisibility` emits is a visibility write, a
layer-not-found warning, or the padded bbox re-fit. -/
theorem manageOverlayVisibility_events (m : MapState) (o : Options) (c : Node) :
    ∀ e ∈ (manageOverlayVisibility m o c).2.2,
      (∃ id v, e = Event.setLayerVisibility id v) ∨ (∃ msg, e = Event.warn msg) ∨
        ∃ b, e = Event.fitBoundsCall b ⟨none, some 20⟩ := by
  intro e he
  unfold manageOverlayVisibility at he
  rcases hvl : o.hideVisibleLayers with _ | hids <;>
  rcases hsl : o.showHiddenLayers with _ | sids <;>
  rcases hbb : o.bbox with _ | b <;>
  simp only [hvl, hsl, hbb] at he
  all_goals
    try rcases List.mem_append.mp he with he | he
  all_goals
    try (rcases List.mem_singleton.mp he with rfl; exact Or.inr (Or.inr ⟨_, rfl⟩))
  all_goals try cases he
  all_goals
    first
    | (rcases setVisibilityLoop_events _ _ _ e he with h | h | h
       · rcases h with ⟨⟩
       · exact Or.inl (by tauto)
       · exact Or.inr (Or.inl (by tauto)))
    | (rcases setVisibilityLoop_events _ _ _ e he with h | h | h
       · rcases setVisibilityLoop_events _ _ _ e h with h' | h' | h'
         · rcases h' with ⟨⟩
         · exact Or.inl (by tauto)
         · exact Or.inr (Or.inl (by tauto))
       · exact Or.inl (by tauto)
       · exact Or.inr (Or.inl (by tauto)))

/-- The only rasterizer call in a `toElement` trace is the one for the format
the `switch` selects. -/
theorem toElement_rasterize_format (w : World) (o : Options)
    (raster : Except String String) (f : String)
    (hmem : Event.rasterizeCall f ∈ (toElement w o raster).trace) :
    f = chooseFormat o.format := by
  cases raster <;>
    simp [toElement, getComputedStyleZIndex, zNormalizePhase_str,
          idleHandler_ok, idleHandler_error] at hmem <;>
  rcases hmem with h | h | h | h <;>
  first
  | (rcases coverPhase_events _ _ _ h with h' | h' | h' <;> cases h')
  | (rcases bboxPrefitPhase_events _ _ _ h with ⟨b, h'⟩; cases h')
  | (rcases manageOverlayVisibility_events _ _ _ _ h with ⟨_, _, h'⟩ | ⟨_, h'⟩ | ⟨_, h'⟩ <;>
      cases h')
  | exact h

/-- C4: `toPng` performs the same capture as `toElement` — same final browser
state and same settlement — but always invokes the PNG rasterizer, regardless
of any `format` option in the caller's configuration. -/
theorem c4_toPng_always_png (w : World) (o : Options) (raster : Except String String) :
    (toPng w o raster).world = (toElement w o raster).world ∧
    (toPng w o raster).result = (toElement w o raster).result ∧
    Event.rasterizeCall "png" ∈ (toPng w o raster).trace ∧
    ∀ f, f ≠ "png" → Event.rasterizeCall f ∉ (toPng w o raster).trace := by
  refine ⟨?_, ?_, ?_, ?_⟩
  · cases raster <;> rfl
  · cases raster <;> rfl
  · cases raster <;>
      simp [toPng, toElement, getComputedStyleZIndex, zNormalizePhase_str,
            idleHandler_ok, idleHandler_error, chooseFormat]
  · intro f hf hmem
    exact hf (toElement_rasterize_format _ _ _ _ hmem)

/-- C5 (amended): before rasterizing, `toElement` always sets the live
container's inline z-index to `0`, whatever the pre-call value was: the guard
`typeof mapZIndex === 'string'` is always true because a computed style value
is a string. -/
theorem c5_zindex_always_normalized (w : World) (o : Options)
    (raster : Except String String) :
    Event.setContainerZIndex "0" ∈ (toElement w o raster).trace := by
  simp only [toElement, getComputedStyleZIndex, zNormalizePhase_str]
  simp [List.mem_append]

/-- C5 counterexample: a concrete container whose computed z-index is the
string `"5"` (not `"auto"`) still gets its inline z-index overwritten to
`"0"` at the normalization step — refuting "left unchanged for any other
pre-call z-index value". -/
theorem c5_counterexample :
    sampleWorld.computedZIndex ≠ "auto" ∧
    sampleWorld.containerStyleZ = some "5" ∧
    Event.setContainerZIndex "0" ∈
      (toElement sampleWorld baseOptions (Except.error "boom")).trace ∧
    (toElement sampleWorld baseOptions (Except.error "boom")).world.containerStyleZ =
      some "0" := by
  refine ⟨by decide, rfl, ?_, rfl⟩
  simp [toElement, getComputedStyleZIndex, zNormalizePhase_str]

/-- The visibility rewrite never changes an entry's key. -/
theorem visAfter_fst (hideIds showIds : List String) (p : String × String) :
    (visAfter hideIds showIds p).1 = p.1 := by
  unfold visAfter
  split
  · rfl
  · split <;> rfl

/-- C6 (amended): when `options.bbox` is supplied, the overlay-visibility step
re-fits the live map to the bbox with the fixed padding 20, but passes no
`animate` option at all — this padded fit does not disable animation. -/
theorem c6_padded_fit_no_animate_disable (w : World) (o : Options) (b : Bounds)
    (raster : Except String String) (hb : o.bbox = some b) :
    Event.fitBoundsCall b ⟨none, some 20⟩ ∈ (toElement w o raster).trace ∧
    FitOptions.animate ⟨none, some 20⟩ ≠ some false := by
  constructor
  · have hmov := manageOverlayVisibility_bbox_event
      (bboxPrefitPhase
        (zNormalizePhase (coverPhase (pinContainerSize w) o).1
          (getComputedStyleZIndex w)).1 o).1.map o (cloneSetup w).tree b hb
    cases raster <;>
      simp [toElement, idleHandler_ok, idleHandler_error] <;>
    tauto
  · simp

/-- C6 counterexample: on a concrete bbox request, the overlay step's only
fit event carries `{ padding: 20 }` and no `animate` key — the claim that this
padded fit runs with animation disabled (`animate = false`) is false. -/
theorem c6_counterexample :
    (manageOverlayVisibility sampleMap { baseOptions with bbox := some sampleBbox }
        sampleTree).2.2 =
      [Event.fitBoundsCall sampleBbox { animate := none, padding := some 20 }] ∧
    FitOptions.animate { animate := none, padding := some 20 } ≠ some false :=
  ⟨rfl, by decide⟩

/-- C7: unknown layer ids in `hideVisibleLayers` / `showHiddenLayers` each
produce a diagnostic warning and are skipped without aborting anything, while
ids the map does have get their visibility layout property written to
`"none"` / `"visible"` respectively (the show loop runs second, so it wins
for an id on both lists), and the capture itself never fails because of a
missing layer — its outcome is exactly the rasterizer's. -/
theorem c7_unknown_layers_warn_known_layers_set (m : MapState) (o : Options)
    (c : Node) (hids sids : List String) (hvl : o.hideVisibleLayers = some hids)
    (hsl : o.showHiddenLayers = some sids) :
    (∀ id ∈ hids, getLayer m id = false →
        Event.warn ("layer " ++ id ++ " not found") ∈
          (manageOverlayVisibility m o c).2.2) ∧
    (∀ id ∈ sids, getLayer m id = false →
        Event.warn ("layer " ++ id ++ " not found") ∈
          (manageOverlayVisibility m o c).2.2) ∧
    (∀ id ∈ hids, id ∉ sids →
        ∀ p ∈ (manageOverlayVisibility m o c).1.layers, p.1 = id → p.2 = "none") ∧
    (∀ id ∈ sids,
        ∀ p ∈ (manageOverlayVisibility m o c).1.layers, p.1 = id → p.2 = "visible") ∧
    (∀ w raster, (toElement w o raster).result = raster.map (fun _ => ())) := by
  refine ⟨?_, ?_, ?_, ?_, ?_⟩
  · intro id hid hg
    exact manageOverlayVisibility_warn_hide m o c id hids hvl hid hg
  · intro id hid hg
    exact manageOverlayVisibility_warn_show m o c id sids hsl hid hg
  · intro id hid hns p hp hkey
    rw [manageOverlayVisibility_fst] at hp
    simp only [hvl, hsl, Option.getD_some] at hp
    rcases List.mem_map.mp hp with ⟨q, hq, hpq⟩
    have hk : q.1 = id := by rw [← hkey, ← hpq, visAfter_fst]
    rw [← hpq]
    unfold visAfter
    rw [hk]
    rw [if_neg (by simpa using hns), if_pos (by simpa using hid)]
  · intro id hid p hp hkey
    rw [manageOverlayVisibility_fst] at hp
    simp only [hvl, hsl, Option.getD_some] at hp
    rcases List.mem_map.mp hp with ⟨q, hq, hpq⟩
    have hk : q.1 = id := by rw [← hkey, ← hpq, visAfter_fst]
    rw [← hpq]
    unfold visAfter
    rw [hk]
    rw [if_pos (by simpa using hid)]
  · intro w raster
    cases raster <;> rfl

/-- C9: in every capture run, the layer-visibility writes and the padded
bbox re-fit of `manageOverlayVisibility`, and the `copyCanvas` pixel copy, all
occur strictly after the one-shot `idle` render-complete signal; the trace
before that signal contains none of them, and the pixel copy is in the part
after it. -/
theorem c9_overlay_edits_and_copy_after_idle (w : World) (o : Options)
    (raster : Except String String) :
    ∃ pre post,
      (toElement w o raster).trace = pre ++ Event.idleFired :: post ∧
      (∀ e ∈ pre, isOverlayEditOrCopy e = false) ∧
      Event.canvasCopy ∈ post := by
  refine ⟨_, _, rfl, ?_, ?_⟩
  · intro e he
    rcases List.mem_append.mp he with he | he
    · rcases List.mem_append.mp he with he | he
      · rcases List.mem_append.mp he with he | he
        · rcases coverPhase_events _ _ _ he with rfl | rfl | rfl <;> rfl
        · rcases List.mem_singleton.mp
            (by simpa [getComputedStyleZIndex, zNormalizePhase_str] using he) with rfl
          rfl
      · rcases bboxPrefitPhase_events _ _ _ he with ⟨b, rfl⟩
        rfl
    · rcases List.mem_singleton.mp he with rfl
      rfl
  · cases raster <;> simp [idleHandler_ok, idleHandler_error]

/-- Witness for C6 (amended) at a concrete run: a configuration with
`bbox := sampleBbox` satisfies the hypothesis, and the theorem yields the
padded, animation-unset fit event in the run's trace. -/
theorem c6_witness :
    ({ baseOptions with bbox := some sampleBbox } : Options).bbox = some sampleBbox ∧
    (Event.fitBoundsCall sampleBbox ⟨none, some 20⟩ ∈
        (toElement sampleWorld { baseOptions with bbox := some sampleBbox }
          (Except.ok "data:image/png;base64,AA")).trace ∧
      FitOptions.animate ⟨none, some 20⟩ ≠ some false) :=
  ⟨rfl, c6_padded_fit_no_animate_disable sampleWorld
    { baseOptions with bbox := some sampleBbox } sampleBbox
    (Except.ok "data:image/png;base64,AA") rfl⟩

/-- Witness for C7 at a concrete run: `sampleMap` has layers `roads` and
`parks` but not `ghost` or `phantom`; the hypotheses hold definitionally and
the theorem yields the warnings, the visibility writes and the non-aborted
outcome. -/
theorem c7_witness :
    layerOptions.hideVisibleLayers = some ["roads", "ghost"] ∧
    layerOptions.showHiddenLayers = some ["parks", "phantom"] ∧
    ((∀ id ∈ ["roads", "ghost"], getLayer sampleMap id = false →
        Event.warn ("layer " ++ id ++ " not found") ∈
          (manageOverlayVisibility sampleMap layerOptions sampleTree).2.2) ∧
     (∀ id ∈ ["parks", "phantom"], getLayer sampleMap id = false →
        Event.warn ("layer " ++ id ++ " not found") ∈
          (manageOverlayVisibility sampleMap layerOptions sampleTree).2.2) ∧
     (∀ id ∈ ["roads", "ghost"], id ∉ ["parks", "phantom"] →
        ∀ p ∈ (manageOverlayVisibility sampleMap layerOptions sampleTree).1.layers,
          p.1 = id → p.2 = "none") ∧
     (∀ id ∈ ["parks", "phantom"],
        ∀ p ∈ (manageOverlayVisibility sampleMap layerOptions sampleTree).1.layers,
          p.1 = id → p.2 = "visible") ∧
     (∀ w raster,
        (toElement w layerOptions raster).result = raster.map (fun _ => ()))) :=
  ⟨rfl, rfl, c7_unknown_layers_warn_known_layers_set sampleMap layerOptions
    sampleTree ["roads", "ghost"] ["parks", "phantom"] rfl rfl⟩

end MapToImage
